import Mathlib

/-!
Verification of the Tackle 1.2 → Tackle 2 migration tool (`hack/tool/tackle`).

The tool is a single Python script.  We embed its pure data transformations
shallowly in Lean:

* Python runtime values that appear in the migrated data are modelled by
  `PyVal` (ints, strings, booleans, `None`, lists, dicts, and `Tackle2Object`
  instances, the latter represented by their attribute dictionary in
  insertion order, exactly what Python's `vars` returns).
* JSON documents are a separate type `Json`; `saveJSON` (which calls
  `json.dumps(·, default=vars)`) and `loadDump` (which calls `json.load`)
  are modelled as total functions `dumps : PyVal → Json` and
  `loadJson : Json → PyVal`.  The Python standard library's text
  printer/parser pair is not part of this repository; we model it as the
  standard bijection between JSON texts and JSON trees, so `dumps`
  produces the tree denoted by the emitted text and `loadJson` interprets
  a tree the way `json.load` materialises it (JSON objects become Python
  dicts).
* The `Tackle12Import.add` method, the tag/tag-type extraction phase, the
  application tag-reference resolution, the stakeholder job-function
  resolution, the pre-import collision check, the uploader and the cleaner
  are translated function by function below, next to their theorems.

`exit(1)` and uncaught Python exceptions are modelled with `Except`:
a `.error` value is a run that terminated with a diagnostic before
producing anything further.
-/

set_option autoImplicit false

namespace Tackle

/-! ### Python values and JSON trees -/

/-- A Python runtime value occurring in the migrated data.  `obj` is a
`Tackle2Object`; its payload is the attribute dictionary (`vars`) in
attribute-insertion order. -/
inductive PyVal where
  | pynone : PyVal
  | bool : Bool → PyVal
  | int : Int → PyVal
  | str : String → PyVal
  | list : List PyVal → PyVal
  | dict : List (String × PyVal) → PyVal
  | obj : List (String × PyVal) → PyVal
deriving Repr, Inhabited

/-- A JSON tree, the denotation of a JSON text. -/
inductive Json where
  | null : Json
  | bool : Bool → Json
  | int : Int → Json
  | str : String → Json
  | arr : List Json → Json
  | obj : List (String × Json) → Json
deriving Repr, Inhabited

mutual

/-- `json.dumps(v, default=vars)`: serialize a Python value to the JSON tree
denoted by the emitted text.  A `Tackle2Object` is serialized through
`vars`, i.e. as the JSON object of its attribute dictionary. -/
def dumps : PyVal → Json
  | .pynone => .null
  | .bool b => .bool b
  | .int i => .int i
  | .str s => .str s
  | .list xs => .arr (dumpsList xs)
  | .dict fs => .obj (dumpsFields fs)
  | .obj fs => .obj (dumpsFields fs)

def dumpsList : List PyVal → List Json
  | [] => []
  | x :: xs => dumps x :: dumpsList xs

def dumpsFields : List (String × PyVal) → List (String × Json)
  | [] => []
  | (k, v) :: fs => (k, dumps v) :: dumpsFields fs

end

mutual

/-- `json.load`: materialise a JSON tree as a Python value (JSON objects
become Python dicts). -/
def loadJson : Json → PyVal
  | .null => .pynone
  | .bool b => .bool b
  | .int i => .int i
  | .str s => .str s
  | .arr xs => .list (loadJsonList xs)
  | .obj fs => .dict (loadJsonFields fs)

def loadJsonList : List Json → List PyVal
  | [] => []
  | x :: xs => loadJson x :: loadJsonList xs

def loadJsonFields : List (String × Json) → List (String × PyVal)
  | [] => []
  | (k, v) :: fs => (k, loadJson v) :: loadJsonFields fs

end

mutual

/-- Replace every `Tackle2Object` inside a value by the dict of its
attributes; everything else unchanged.  This is the only difference a
`dumps`/`load` round trip can make. -/
def erase : PyVal → PyVal
  | .pynone => .pynone
  | .bool b => .bool b
  | .int i => .int i
  | .str s => .str s
  | .list xs => .list (eraseList xs)
  | .dict fs => .dict (eraseFields fs)
  | .obj fs => .dict (eraseFields fs)

def eraseList : List PyVal → List PyVal
  | [] => []
  | x :: xs => erase x :: eraseList xs

def eraseFields : List (String × PyVal) → List (String × PyVal)
  | [] => []
  | (k, v) :: fs => (k, erase v) :: eraseFields fs

end

mutual

/-- A value already JSON-shaped: it contains no `Tackle2Object`. -/
def jsonPure : PyVal → Bool
  | .pynone => true
  | .bool _ => true
  | .int _ => true
  | .str _ => true
  | .list xs => jsonPureList xs
  | .dict fs => jsonPureFields fs
  | .obj _ => false

def jsonPureList : List PyVal → Bool
  | [] => true
  | x :: xs => jsonPure x && jsonPureList xs

def jsonPureFields : List (String × PyVal) → Bool
  | [] => true
  | (_, v) :: fs => jsonPure v && jsonPureFields fs

end

/-- `saveJSON(path, collection)` writes `json.dumps(collection, default=vars)`;
the stored document of the collection is this JSON tree. -/
def saveJSON (collection : List PyVal) : Json :=
  dumps (.list collection)

/-- `loadDump(path)` is `json.load` on the stored document. -/
def loadDump (doc : Json) : PyVal :=
  loadJson doc

mutual

theorem loadJson_dumps : ∀ v : PyVal, loadJson (dumps v) = erase v
  | .pynone => rfl
  | .bool _ => rfl
  | .int _ => rfl
  | .str _ => rfl
  | .list xs => by simp [dumps, loadJson, erase, loadJsonList_dumpsList xs]
  | .dict fs => by simp [dumps, loadJson, erase, loadJsonFields_dumpsFields fs]
  | .obj fs => by simp [dumps, loadJson, erase, loadJsonFields_dumpsFields fs]

theorem loadJsonList_dumpsList : ∀ xs : List PyVal,
    loadJsonList (dumpsList xs) = eraseList xs
  | [] => rfl
  | x :: xs => by
      simp [dumpsList, loadJsonList, eraseList, loadJson_dumps x,
        loadJsonList_dumpsList xs]

theorem loadJsonFields_dumpsFields : ∀ fs : List (String × PyVal),
    loadJsonFields (dumpsFields fs) = eraseFields fs
  | [] => rfl
  | (k, v) :: fs => by
      simp [dumpsFields, loadJsonFields, eraseFields, loadJson_dumps v,
        loadJsonFields_dumpsFields fs]

end

mutual

theorem erase_of_jsonPure : ∀ v : PyVal, jsonPure v = true → erase v = v
  | .pynone, _ => rfl
  | .bool _, _ => rfl
  | .int _, _ => rfl
  | .str _, _ => rfl
  | .list xs, h => by
      simp only [jsonPure] at h
      simp [erase, eraseList_of_jsonPureList xs h]
  | .dict fs, h => by
      simp only [jsonPure] at h
      simp [erase, eraseFields_of_jsonPureFields fs h]

theorem eraseList_of_jsonPureList : ∀ xs : List PyVal,
    jsonPureList xs = true → eraseList xs = xs
  | [], _ => rfl
  | x :: xs, h => by
      simp only [jsonPureList, Bool.and_eq_true] at h
      simp [eraseList, erase_of_jsonPure x h.1, eraseList_of_jsonPureList xs h.2]

theorem eraseFields_of_jsonPureFields : ∀ fs : List (String × PyVal),
    jsonPureFields fs = true → eraseFields fs = fs
  | [], _ => rfl
  | (k, v) :: fs, h => by
      simp only [jsonPureFields, Bool.and_eq_true] at h
      simp [eraseFields, erase_of_jsonPure v h.1,
        eraseFields_of_jsonPureFields fs h.2]

end

theorem eraseFields_keys (fs : List (String × PyVal)) :
    (eraseFields fs).map Prod.fst = fs.map Prod.fst := by
  induction fs with
  | nil => rfl
  | cons p fs ih => cases p; simp [eraseFields, ih]

theorem eraseList_eq_map (xs : List PyVal) : eraseList xs = xs.map erase := by
  induction xs with
  | nil => rfl
  | cons x xs ih => simp [eraseList, ih]

/-! ### The fixed type list and the excluded ("assessment") types -/

/-- `Tackle12Import.TYPES` (line 121), verbatim. -/
def TYPES : List String :=
  ["tags", "tagtypes", "jobfunctions", "stakeholdergroups", "stakeholders",
   "businessservices", "applications", "proxies", "dependencies",
   "assessments", "assessments--assessment-risk", "assessments--confidence",
   "reviews", "identities"]

/-- Python's `"assessment" in t` substring test, used by `preImportCheck`,
`uploadTackle2` and `cleanTackle2` to skip Pathfinder types. -/
def isAssessment (t : String) : Bool :=
  decide (List.IsInfix "assessment".toList t.toList)

/-! ### `Tackle12Import.add` (lines 368–373)

```python
def add(self, type, item):
    for existingItem in self.data[type]:
        if hasattr(item, 'id') and item.id == existingItem.id:
            # The item is already present, skipping
            return
    self.data[type].append(item)
```

The loop body first tests `hasattr(item, 'id')`; only when the *new* item
has an `id` does it evaluate `existingItem.id`, which raises
`AttributeError` when that existing element has no `id` attribute.  We
model an item generically through an id-projection `getId : α → Option Int`
(`none` = attribute absent), and an exception as `Except.error`. -/

/-- One pass of `add`'s loop: `ok true` means a duplicate id was found (the
method returns early), `ok false` means the loop ran off the end (the item
is appended), `error` is an uncaught `AttributeError`. -/
def addScan {α : Type} (getId : α → Option Int) (item : α) :
    List α → Except String Bool
  | [] => .ok false
  | existing :: rest =>
    match getId item with
    | Option.none => addScan getId item rest
    | some iid =>
      match getId existing with
      | Option.none => .error "AttributeError: object has no attribute id"
      | some eid => if iid = eid then .ok true else addScan getId item rest

/-- `Tackle12Import.add`: returns the updated collection, or the uncaught
exception. -/
def add {α : Type} (getId : α → Option Int) (coll : List α) (item : α) :
    Except String (List α) :=
  match addScan getId item coll with
  | .ok true => .ok coll
  | .ok false => .ok (coll ++ [item])
  | .error e => .error e

/-- Total variant for call sites where every element carries an id (tags,
tag types, …): skip when the id is already present, append otherwise. -/
def addI {α : Type} (getId : α → Int) (coll : List α) (item : α) : List α :=
  if coll.any (fun e => getId e = getId item) then coll else coll ++ [item]

/-- On a collection whose elements all carry an id, the duplicate scan never
raises: it reports whether the item's id already occurs. -/
theorem addScan_total {α : Type} (getId : α → Int) (item : α) :
    ∀ coll : List α,
      addScan (fun e => some (getId e)) item coll =
        .ok (coll.any (fun e => getId e = getId item))
  | [] => rfl
  | e :: rest => by
    by_cases h : getId item = getId e
    · simp [addScan, h, List.any_cons, eq_comm]
    · have h' : ¬(getId e = getId item) := fun hc => h hc.symm
      simp [addScan, h, h', List.any_cons, addScan_total getId item rest]

/-- On collections whose id attribute is always present, `add` never raises
and agrees with `addI`. -/
theorem add_eq_addI {α : Type} (getId : α → Int) (coll : List α) (item : α) :
    add (fun e => some (getId e)) coll item = .ok (addI getId coll item) := by
  unfold add addI
  rw [addScan_total]
  by_cases h : coll.any (fun e => getId e = getId item)
  · simp [h]
  · simp [h]

/-! ### Tag type / tag extraction (`dumpTackle1`, lines 173–199)

```python
collection = apiJSON(self.tackle1Url + "/api/controls/tag-type", ...)
for tt1 in collection:
    tags = []
    for tag1 in tt1['tags']:
        tag      = Tackle2Object(tag1)
        tag.name = tag1['name']
        self.add('origin-tags', tag)
        if tag.name not in self.destData['tags']:
            self.add('tags', tag)
        tags.append(tag)
    tt          = Tackle2Object(tt1)
    tt.name     = tt1['name']
    tt.colour   = tt1['colour']
    tt.rank     = tt1['rank']
    tt.username = tt1['createUser']
    for tag in tags:
        tag.tagType = copy.deepcopy(tt)
    tt.tags = tags
    if tt.name not in self.destData['tagtypes']:
        self.add('tagtypes', tt)
```

The tag objects appended to `origin-tags`/`tags` are aliased by the local
`tags` list and mutated afterwards (`tag.tagType = copy.deepcopy(tt)`), so
by the end of the iteration every object this iteration appended carries
the owning tag type.  The `deepcopy` is taken *before* `tt.tags = tags`,
so the embedded tag type has no `tags` attribute.  `add` only reads `id`,
so the functional model may build the finished tag entity up front. -/

structure SourceTag where
  id : Int
  createUser : String
  updateUser : String
  name : String
deriving Repr, DecidableEq

structure SourceTagType where
  id : Int
  createUser : String
  updateUser : String
  name : String
  colour : String
  rank : Int
  tags : List SourceTag
deriving Repr, DecidableEq

/-- The tag-type entity as `copy.deepcopy(tt)` captures it at line 195:
constructor fields plus `name`, `colour`, `rank`, `username`; no `tags`
attribute yet. -/
structure TagTypeCore where
  id : Int
  createUser : String
  updateUser : String
  name : String
  colour : String
  rank : Int
  username : String
deriving Repr, DecidableEq

def mkTagTypeCore (tt1 : SourceTagType) : TagTypeCore :=
  { id := tt1.id, createUser := tt1.createUser, updateUser := tt1.updateUser,
    name := tt1.name, colour := tt1.colour, rank := tt1.rank,
    username := tt1.createUser }

/-- A tag entity as it stands at the end of the iteration that created it
(the `tag.tagType` mutation applied). -/
structure TagEntity where
  id : Int
  createUser : String
  updateUser : String
  name : String
  tagType : TagTypeCore
deriving Repr, DecidableEq

def mkTagEntity (tt1 : SourceTagType) (tag1 : SourceTag) : TagEntity :=
  { id := tag1.id, createUser := tag1.createUser,
    updateUser := tag1.updateUser, name := tag1.name,
    tagType := mkTagTypeCore tt1 }

structure TagTypeEntity where
  core : TagTypeCore
  tags : List TagEntity
deriving Repr, DecidableEq

/-- A destination tag recorded by `loadTackle2Seeds` (lines 148–153): a
fresh `Tackle2Object()` with only `id` and `name` set. -/
structure DestTag where
  id : Int
  name : String
deriving Repr, DecidableEq

/-- The collections the tag phase touches.  `originTags` is
`self.data['origin-tags']`, `tags` is `self.data['tags']`, `tagtypes` is
`self.data['tagtypes']`. -/
structure TagPhaseState where
  originTags : List TagEntity
  tags : List TagEntity
  tagtypes : List TagTypeEntity
deriving Repr, DecidableEq

def TagPhaseState.empty : TagPhaseState := ⟨[], [], []⟩

/-- The inner `for tag1 in tt1['tags']` loop, on the finished tag entities.
`destTags` is `self.destData['tags']`, a dict keyed by tag name. -/
def processTags (destTags : List (String × DestTag)) :
    TagPhaseState → List TagEntity → TagPhaseState
  | s, [] => s
  | s, te :: rest =>
      processTags destTags
        { s with
          originTags := addI TagEntity.id s.originTags te,
          tags := if (destTags.lookup te.name).isNone
                  then addI TagEntity.id s.tags te
                  else s.tags } rest

/-- One iteration of the outer `for tt1 in collection` loop.
`destTagTypeNames` is the key set of `self.destData['tagtypes']` (only
membership of the name is ever read from that dict). -/
def processTagType (destTags : List (String × DestTag))
    (destTagTypeNames : List String) (s : TagPhaseState)
    (tt1 : SourceTagType) : TagPhaseState :=
  let newTags := tt1.tags.map (mkTagEntity tt1)
  let s1 := processTags destTags s newTags
  if destTagTypeNames.contains tt1.name then s1
  else { s1 with
         tagtypes := addI (fun e => e.core.id) s1.tagtypes
                       ⟨mkTagTypeCore tt1, newTags⟩ }

/-- The whole tag-type section of `dumpTackle1`. -/
def processTagTypes (destTags : List (String × DestTag))
    (destTagTypeNames : List String) :
    TagPhaseState → List SourceTagType → TagPhaseState
  | s, [] => s
  | s, tt1 :: rest =>
      processTagTypes destTags destTagTypeNames
        (processTagType destTags destTagTypeNames s tt1) rest

/-- All tag entities the run builds, in creation order, each paired with
its owning tag type by construction. -/
def allTags (tts : List SourceTagType) : List TagEntity :=
  tts.flatMap (fun tt1 => tt1.tags.map (mkTagEntity tt1))

/-! ### `findById` (lines 162–169) and application tag resolution
(lines 201–220)

```python
def findById(self, objType, id):
    for obj in self.data[objType]:
        if obj.id == id:
            return obj
    print("ERROR: %s record ID %d not found." % (objType, id))
    exit(1)
```

Inside the application loop:

```python
for tagId in app1['tags']:
    appTag = self.findById('origin-tags', int(tagId))
    if appTag.name in self.destData['tags']:
        tags.append(self.destData['tags'][appTag.name])
    else:
        tag      = Tackle2Object()
        tag.id   = appTag.id
        tag.name = appTag.name
        tags.append(tag)
```

(`int(tagId)` converts the source's string id; we model ids as integers
throughout.) -/

/-- The diagnostic `findById` prints before `exit(1)`: the type name and
the id that was not found. -/
structure FindErr where
  objType : String
  id : Int
deriving Repr, DecidableEq

/-- `Tackle12Import.findById`: first element with the given id, else a
fatal error naming the type and the id. -/
def findById (objType : String) (coll : List TagEntity) (id : Int) :
    Except FindErr TagEntity :=
  match coll with
  | [] => .error ⟨objType, id⟩
  | obj :: rest => if obj.id = id then .ok obj else findById objType rest id

/-- An output tag reference: the remapped destination object (`id`/`name`
only) or a fresh object with the origin tag's `id`/`name` ("cut
association to Tag type"). -/
structure TagRef where
  id : Int
  name : String
deriving Repr, DecidableEq

/-- Resolution of one application tag id (loop body above). -/
def resolveTagRef (originTags : List TagEntity)
    (destTags : List (String × DestTag)) (tagId : Int) :
    Except FindErr TagRef := do
  let appTag ← findById "origin-tags" originTags tagId
  match destTags.lookup appTag.name with
  | some dt => .ok ⟨dt.id, dt.name⟩
  | Option.none => .ok ⟨appTag.id, appTag.name⟩

/-- The whole `for tagId in app1['tags']` loop: the application's output
tag reference list, or the fatal error that aborted the run. -/
def resolveAppTags (originTags : List TagEntity)
    (destTags : List (String × DestTag)) :
    List Int → Except FindErr (List TagRef)
  | [] => .ok []
  | tid :: rest => do
      let r ← resolveTagRef originTags destTags tid
      let rs ← resolveAppTags originTags destTags rest
      .ok (r :: rs)

/-! ### Lemmas about the tag phase -/

theorem addI_append {α : Type} (getId : α → Int) (coll : List α) (item : α)
    (h : getId item ∉ coll.map getId) :
    addI getId coll item = coll ++ [item] := by
  unfold addI
  have hany : coll.any (fun e => getId e = getId item) = false := by
    simp only [List.any_eq_false, decide_eq_true_eq]
    intro e he hc
    exact h (hc ▸ List.mem_map_of_mem getId he)
  simp [hany]

theorem mem_addI {α : Type} {getId : α → Int} {coll : List α} {item x : α}
    (hx : x ∈ addI getId coll item) : x ∈ coll ∨ x = item := by
  unfold addI at hx
  split at hx
  · exact .inl hx
  · rcases List.mem_append.mp hx with h1 | h1
    · exact .inl h1
    · exact .inr (List.mem_singleton.mp h1)

/-- When every incoming tag id is fresh (Nodup across the existing
`origin-tags` collection and the batch) and the `tags` collection only
holds ids already in `origin-tags`, the inner tag loop appends the whole
batch to `origin-tags` and exactly the dedup survivors to `tags`. -/
theorem processTags_spec (destTags : List (String × DestTag)) :
    ∀ (tes : List TagEntity) (s : TagPhaseState),
      (s.originTags.map TagEntity.id ++ tes.map TagEntity.id).Nodup →
      (∀ i ∈ s.tags.map TagEntity.id, i ∈ s.originTags.map TagEntity.id) →
      (processTags destTags s tes).originTags = s.originTags ++ tes ∧
      (processTags destTags s tes).tags =
        s.tags ++ tes.filter (fun te => (destTags.lookup te.name).isNone) ∧
      (processTags destTags s tes).tagtypes = s.tagtypes
  | [], s, _, _ => by simp [processTags]
  | te :: rest, s, hnd, hsub => by
      have hnd' : (s.originTags.map TagEntity.id ++
          (te.id :: rest.map TagEntity.id)).Nodup := by
        simpa using hnd
      rw [List.nodup_append] at hnd'
      obtain ⟨hndA, hndR, hdisj⟩ := hnd'
      have hid_orig : te.id ∉ s.originTags.map TagEntity.id := fun hmem =>
        hdisj hmem (List.mem_cons_self _ _)
      have hid_rest : te.id ∉ rest.map TagEntity.id :=
        (List.nodup_cons.mp hndR).1
      have hid_tags : te.id ∉ s.tags.map TagEntity.id := fun hmem =>
        hid_orig (hsub _ hmem)
      have horig : addI TagEntity.id s.originTags te =
          s.originTags ++ [te] := addI_append _ _ _ hid_orig
      have htags : addI TagEntity.id s.tags te = s.tags ++ [te] :=
        addI_append _ _ _ hid_tags
      set s' : TagPhaseState :=
        { s with
          originTags := addI TagEntity.id s.originTags te,
          tags := if (destTags.lookup te.name).isNone
                  then addI TagEntity.id s.tags te
                  else s.tags } with hs'
      have hstep : processTags destTags s (te :: rest) =
          processTags destTags s' rest := rfl
      have hnd2 : (s'.originTags.map TagEntity.id ++
          rest.map TagEntity.id).Nodup := by
        rw [hs']
        simp only [horig]
        rw [List.nodup_append]
        refine ⟨?_, hndR.of_cons, ?_⟩
        · simp only [List.map_append, List.map_cons, List.map_nil]
          rw [List.nodup_append]
          refine ⟨hndA, List.nodup_singleton _, ?_⟩
          intro a ha hb
          rw [List.mem_singleton] at hb
          exact hid_orig (hb ▸ ha)
        · intro a ha hb
          simp only [List.map_append, List.map_cons, List.map_nil,
            List.mem_append, List.mem_singleton] at ha
          rcases ha with ha | ha
          · exact hdisj ha (List.mem_cons_of_mem _ hb)
          · exact hid_rest (ha ▸ hb)
      have hsub2 : ∀ i ∈ s'.tags.map TagEntity.id,
          i ∈ s'.originTags.map TagEntity.id := by
        rw [hs']
        simp only [horig]
        intro i hi
        split at hi
        · rw [htags] at hi
          simp only [List.map_append, List.map_cons, List.map_nil,
            List.mem_append, List.mem_singleton] at hi ⊢
          rcases hi with hi | hi
          · exact .inl (hsub _ hi)
          · exact .inr hi
        · simp only [List.map_append, List.map_cons, List.map_nil,
            List.mem_append, List.mem_singleton]
          exact .inl (hsub _ hi)
      obtain ⟨ih1, ih2, ih3⟩ := processTags_spec destTags rest s' hnd2 hsub2
      refine ⟨?_, ?_, ?_⟩
      · rw [hstep, ih1, hs']
        simp [horig]
      · rw [hstep, ih2, hs']
        by_cases hname : (destTags.lookup te.name).isNone
        · simp only [hname, if_true, htags, List.filter_cons]
          simp [hname]
        · simp only [hname, if_false, List.filter_cons]
          simp [hname]
      · rw [hstep, ih3, hs']

theorem allTags_cons (tt1 : SourceTagType) (rest : List SourceTagType) :
    allTags (tt1 :: rest) = tt1.tags.map (mkTagEntity tt1) ++ allTags rest := by
  simp [allTags]

/-- Structure of the final tag-phase state, assuming globally distinct
source tag ids: `origin-tags` holds every extracted tag, `tags` exactly
those whose name the destination does not already have. -/
theorem processTagTypes_spec (destTags : List (String × DestTag))
    (destNames : List String) :
    ∀ (tts : List SourceTagType) (s : TagPhaseState),
      (s.originTags.map TagEntity.id ++ (allTags tts).map TagEntity.id).Nodup →
      (∀ i ∈ s.tags.map TagEntity.id, i ∈ s.originTags.map TagEntity.id) →
      (processTagTypes destTags destNames s tts).originTags =
        s.originTags ++ allTags tts ∧
      (processTagTypes destTags destNames s tts).tags =
        s.tags ++ (allTags tts).filter
          (fun te => (destTags.lookup te.name).isNone)
  | [], s, _, _ => by simp [processTagTypes, allTags]
  | tt1 :: rest, s, hnd, hsub => by
      have hAll : allTags (tt1 :: rest) =
          tt1.tags.map (mkTagEntity tt1) ++ allTags rest := allTags_cons tt1 rest
      set newTags := tt1.tags.map (mkTagEntity tt1) with hnew
      have hnd0 : (s.originTags.map TagEntity.id ++
          (newTags.map TagEntity.id ++ (allTags rest).map TagEntity.id)).Nodup := by
        rw [hAll] at hnd
        simpa using hnd
      have hnd1 : (s.originTags.map TagEntity.id ++
          newTags.map TagEntity.id).Nodup := by
        rw [← List.append_assoc] at hnd0
        exact hnd0.sublist (List.sublist_append_left _ _)
      obtain ⟨h1, h2, h3⟩ := processTags_spec destTags newTags s hnd1 hsub
      set s1 := processTags destTags s newTags with hs1
      set s2 := if destNames.contains tt1.name then s1
        else { s1 with
               tagtypes := addI (fun e => e.core.id) s1.tagtypes
                             ⟨mkTagTypeCore tt1, newTags⟩ } with hs2
      have hstep : processTagTypes destTags destNames s (tt1 :: rest) =
          processTagTypes destTags destNames s2 rest := by
        simp only [processTagTypes, processTagType, hs2, hs1, hnew]
      have hs2orig : s2.originTags = s.originTags ++ newTags := by
        rw [hs2]; split <;> simp [h1]
      have hs2tags : s2.tags = s.tags ++ newTags.filter
          (fun te => (destTags.lookup te.name).isNone) := by
        rw [hs2]; split <;> simp [h2]
      have hnd2 : (s2.originTags.map TagEntity.id ++
          (allTags rest).map TagEntity.id).Nodup := by
        rw [hs2orig]
        simp only [List.map_append]
        rw [List.append_assoc]
        exact hnd0
      have hsub2 : ∀ i ∈ s2.tags.map TagEntity.id,
          i ∈ s2.originTags.map TagEntity.id := by
        rw [hs2orig, hs2tags]
        intro i hi
        simp only [List.map_append, List.mem_append] at hi ⊢
        rcases hi with hi | hi
        · exact .inl (hsub _ hi)
        · refine .inr ?_
          obtain ⟨te, hte, rfl⟩ := List.mem_map.mp hi
          exact List.mem_map_of_mem _ (List.mem_of_mem_filter hte)
      obtain ⟨ih1, ih2⟩ :=
        processTagTypes_spec destTags destNames rest s2 hnd2 hsub2
      constructor
      · rw [hstep, ih1, hs2orig, hAll, List.append_assoc]
      · rw [hstep, ih2, hs2tags, hAll, List.filter_append, List.append_assoc]

/-- Every element of the final `tags` collection is one of the extracted
tag entities (no distinctness assumption needed). -/
theorem processTags_tags_mem (destTags : List (String × DestTag)) :
    ∀ (tes : List TagEntity) (s : TagPhaseState) (x : TagEntity),
      x ∈ (processTags destTags s tes).tags → x ∈ s.tags ∨ x ∈ tes
  | [], _, _, hx => .inl hx
  | te :: rest, s, x, hx => by
      rcases processTags_tags_mem destTags rest _ x hx with h | h
      · simp only at h
        split at h
        · rcases mem_addI h with h1 | h1
          · exact .inl h1
          · exact .inr (h1 ▸ List.mem_cons_self _ _)
        · exact .inl h
      · exact .inr (List.mem_cons_of_mem _ h)

theorem processTagTypes_tags_mem (destTags : List (String × DestTag))
    (destNames : List String) :
    ∀ (tts : List SourceTagType) (s : TagPhaseState) (x : TagEntity),
      x ∈ (processTagTypes destTags destNames s tts).tags →
      x ∈ s.tags ∨ x ∈ allTags tts
  | [], _, _, hx => .inl hx
  | tt1 :: rest, s, x, hx => by
      have hx' : x ∈ (processTagTypes destTags destNames
          (processTagType destTags destNames s tt1) rest).tags := hx
      rcases processTagTypes_tags_mem destTags destNames rest _ x hx' with h | h
      · have hmid : x ∈ (processTags destTags s
            (tt1.tags.map (mkTagEntity tt1))).tags := by
          unfold processTagType at h
          split at h <;> simpa using h
        rcases processTags_tags_mem destTags _ s x hmid with h1 | h1
        · exact .inl h1
        · exact .inr (by rw [allTags_cons]; exact List.mem_append_left _ h1)
      · exact .inr (by rw [allTags_cons]; exact List.mem_append_right _ h)

theorem findById_error (objType : String) :
    ∀ (coll : List TagEntity) (tid : Int),
      tid ∉ coll.map TagEntity.id →
      findById objType coll tid = .error ⟨objType, tid⟩
  | [], _, _ => rfl
  | obj :: rest, tid, h => by
      have hne : ¬obj.id = tid := fun hc => h (by simp [← hc])
      have hr : tid ∉ rest.map TagEntity.id := fun hc => h (by simp [hc])
      simp [findById, hne, findById_error objType rest tid hr]

theorem findById_isOk (objType : String) :
    ∀ (coll : List TagEntity) (tid : Int),
      tid ∈ coll.map TagEntity.id →
      ∃ te : TagEntity, findById objType coll tid = .ok te
  | [], _, h => absurd h (List.not_mem_nil _)
  | obj :: rest, tid, h => by
      by_cases he : obj.id = tid
      · exact ⟨obj, by simp [findById, he]⟩
      · have hr : tid ∈ rest.map TagEntity.id := by
          rcases List.mem_map.mp h with ⟨e, he', rfl⟩
          rcases List.mem_cons.mp he' with rfl | he''
          · exact absurd rfl he
          · exact List.mem_map_of_mem _ he''
        obtain ⟨te, hte⟩ := findById_isOk objType rest tid hr
        exact ⟨te, by simp [findById, he, hte]⟩

/-- On a collection with distinct ids, `findById` returns exactly the
member carrying the requested id. -/
theorem findById_mem (objType : String) :
    ∀ (coll : List TagEntity) (te : TagEntity),
      te ∈ coll → (coll.map TagEntity.id).Nodup →
      findById objType coll te.id = .ok te
  | [], te, h, _ => absurd h (List.not_mem_nil te)
  | obj :: rest, te, h, hnd => by
      have hhead : obj.id ∉ rest.map TagEntity.id :=
        (List.nodup_cons.mp (by simpa using hnd)).1
      by_cases he : obj.id = te.id
      · have : te = obj := by
          rcases List.mem_cons.mp h with rfl | hmem
          · rfl
          · exact absurd (he ▸ List.mem_map_of_mem TagEntity.id hmem) hhead
        simp [findById, he, this]
      · have hmem : te ∈ rest := by
          rcases List.mem_cons.mp h with rfl | hmem
          · exact absurd rfl he
          · exact hmem
        have := findById_mem objType rest te hmem
          (by simpa using (List.nodup_cons.mp (by simpa using hnd)).2)
        simp [findById, he, this]

/-- Reduction of `resolveTagRef` once `findById` is known to succeed. -/
theorem resolveTagRef_ok (originTags : List TagEntity)
    (destTags : List (String × DestTag)) (tagId : Int) (te : TagEntity)
    (hf : findById "origin-tags" originTags tagId = .ok te) :
    resolveTagRef originTags destTags tagId =
      match destTags.lookup te.name with
      | some dt => .ok ⟨dt.id, dt.name⟩
      | Option.none => .ok ⟨te.id, te.name⟩ := by
  unfold resolveTagRef
  rw [hf]
  rfl

/-- Reduction of `resolveTagRef` once `findById` is known to fail. -/
theorem resolveTagRef_error (originTags : List TagEntity)
    (destTags : List (String × DestTag)) (tagId : Int) (e : FindErr)
    (hf : findById "origin-tags" originTags tagId = .error e) :
    resolveTagRef originTags destTags tagId = .error e := by
  unfold resolveTagRef
  rw [hf]
  rfl

theorem resolveAppTags_cons_error (originTags : List TagEntity)
    (destTags : List (String × DestTag)) (tid : Int) (rest : List Int)
    (e : FindErr) (h : resolveTagRef originTags destTags tid = .error e) :
    resolveAppTags originTags destTags (tid :: rest) = .error e := by
  unfold resolveAppTags
  rw [h]
  rfl

theorem resolveAppTags_cons_ok_error (originTags : List TagEntity)
    (destTags : List (String × DestTag)) (tid : Int) (rest : List Int)
    (r : TagRef) (e : FindErr)
    (h1 : resolveTagRef originTags destTags tid = .ok r)
    (h2 : resolveAppTags originTags destTags rest = .error e) :
    resolveAppTags originTags destTags (tid :: rest) = .error e := by
  unfold resolveAppTags
  rw [h1]
  show (do
    let rs ← resolveAppTags originTags destTags rest
    Except.ok (r :: rs)) = .error e
  rw [h2]
  rfl

/-! ### Claim theorems: C1, C2, C4 -/

/-- **C1.** For every source tag whose name already exists in
`destData['tags']`, the transformation omits that tag from the outgoing
`tags` collection (no outgoing tag carries a destination-known name, in
particular none carries that tag's name), and resolving that tag's origin
id for an application's output reference list yields the destination
entity's identity (destination id and name); a tag whose name is absent
from the destination index is appended to `tags` and resolved to its
origin identity.  Source tag ids are assumed pairwise distinct, as ids are
unique within the origin system. -/
theorem c1_tag_dedup_remap (destTags : List (String × DestTag))
    (destNames : List String) (tts : List SourceTagType)
    (hnd : ((allTags tts).map TagEntity.id).Nodup) :
    (∀ te ∈ (processTagTypes destTags destNames TagPhaseState.empty tts).tags,
        destTags.lookup te.name = Option.none) ∧
    (∀ tt1 ∈ tts, ∀ t1 ∈ tt1.tags, ∀ dt : DestTag,
        destTags.lookup t1.name = some dt →
        (∀ te ∈ (processTagTypes destTags destNames
            TagPhaseState.empty tts).tags, te.name ≠ t1.name) ∧
        resolveTagRef
          (processTagTypes destTags destNames TagPhaseState.empty tts).originTags
          destTags t1.id = .ok ⟨dt.id, dt.name⟩) ∧
    (∀ tt1 ∈ tts, ∀ t1 ∈ tt1.tags,
        destTags.lookup t1.name = Option.none →
        mkTagEntity tt1 t1 ∈
          (processTagTypes destTags destNames TagPhaseState.empty tts).tags ∧
        resolveTagRef
          (processTagTypes destTags destNames TagPhaseState.empty tts).originTags
          destTags t1.id = .ok ⟨t1.id, t1.name⟩) := by
  obtain ⟨horig, htags⟩ := processTagTypes_spec destTags destNames tts
    TagPhaseState.empty (by simpa [TagPhaseState.empty] using hnd)
    (by simp [TagPhaseState.empty])
  rw [show TagPhaseState.empty.originTags = [] from rfl, List.nil_append] at horig
  rw [show TagPhaseState.empty.tags = [] from rfl, List.nil_append] at htags
  have hpart_a : ∀ te ∈ (processTagTypes destTags destNames
      TagPhaseState.empty tts).tags, destTags.lookup te.name = Option.none := by
    intro te hte
    rw [htags] at hte
    have := (List.mem_filter.mp hte).2
    simpa [Option.isNone_iff_eq_none] using this
  have hfind : ∀ tt1 ∈ tts, ∀ t1 ∈ tt1.tags,
      findById "origin-tags"
        (processTagTypes destTags destNames TagPhaseState.empty tts).originTags
        t1.id = .ok (mkTagEntity tt1 t1) := by
    intro tt1 htt1 t1 ht1
    have hmem : mkTagEntity tt1 t1 ∈ allTags tts :=
      List.mem_flatMap.mpr ⟨tt1, htt1, List.mem_map_of_mem _ ht1⟩
    have : findById "origin-tags" (allTags tts) (mkTagEntity tt1 t1).id =
        .ok (mkTagEntity tt1 t1) := findById_mem _ _ _ hmem hnd
    rw [horig]
    exact this
  refine ⟨hpart_a, ?_, ?_⟩
  · intro tt1 htt1 t1 ht1 dt hdt
    refine ⟨?_, ?_⟩
    · intro te hte hname
      have := hpart_a te hte
      rw [hname, hdt] at this
      exact Option.noConfusion this
    · have hf := hfind tt1 htt1 t1 ht1
      rw [resolveTagRef_ok _ _ _ _ hf]
      have : (mkTagEntity tt1 t1).name = t1.name := rfl
      rw [this, hdt]
  · intro tt1 htt1 t1 ht1 hnone
    refine ⟨?_, ?_⟩
    · rw [htags]
      refine List.mem_filter.mpr ?_
      refine ⟨List.mem_flatMap.mpr ⟨tt1, htt1, List.mem_map_of_mem _ ht1⟩, ?_⟩
      simp [mkTagEntity, hnone]
    · have hf := hfind tt1 htt1 t1 ht1
      rw [resolveTagRef_ok _ _ _ _ hf]
      have : (mkTagEntity tt1 t1).name = t1.name := rfl
      rw [this, hnone]
      rfl

/-- Witness for C1: category "Language" (id 5) holds tag "Java" (origin id
99) and tag "Python" (origin id 7); the destination already has a tag
named "Java" with id 42.  After the transformation, resolving origin id 99
yields the destination identity `{42, "Java"}`, no outgoing tag is named
"Java", and "Python" survives to `tags` and resolves to its origin
identity `{7, "Python"}`. -/
theorem c1_tag_dedup_remap_witness :
    ((allTags [⟨5, "alice", "alice", "Language", "blue", 1,
        [⟨99, "alice", "alice", "Java"⟩, ⟨7, "alice", "alice", "Python"⟩]⟩]).map
          TagEntity.id).Nodup ∧
    resolveTagRef
      (processTagTypes [("Java", ⟨42, "Java"⟩)] []
        TagPhaseState.empty
        [⟨5, "alice", "alice", "Language", "blue", 1,
          [⟨99, "alice", "alice", "Java"⟩, ⟨7, "alice", "alice", "Python"⟩]⟩]).originTags
      [("Java", ⟨42, "Java"⟩)] 99 = .ok ⟨42, "Java"⟩ ∧
    resolveTagRef
      (processTagTypes [("Java", ⟨42, "Java"⟩)] []
        TagPhaseState.empty
        [⟨5, "alice", "alice", "Language", "blue", 1,
          [⟨99, "alice", "alice", "Java"⟩, ⟨7, "alice", "alice", "Python"⟩]⟩]).originTags
      [("Java", ⟨42, "Java"⟩)] 7 = .ok ⟨7, "Python"⟩ := by
  have hnd : ((allTags [⟨5, "alice", "alice", "Language", "blue", 1,
      [⟨99, "alice", "alice", "Java"⟩, ⟨7, "alice", "alice", "Python"⟩]⟩]).map
        TagEntity.id).Nodup := by decide
  have h := c1_tag_dedup_remap [("Java", ⟨42, "Java"⟩)] []
    [⟨5, "alice", "alice", "Language", "blue", 1,
      [⟨99, "alice", "alice", "Java"⟩, ⟨7, "alice", "alice", "Python"⟩]⟩] hnd
  refine ⟨hnd, ?_, ?_⟩
  · exact (h.2.1
      ⟨5, "alice", "alice", "Language", "blue", 1,
        [⟨99, "alice", "alice", "Java"⟩, ⟨7, "alice", "alice", "Python"⟩]⟩
      (by decide) ⟨99, "alice", "alice", "Java"⟩ (by decide)
      ⟨42, "Java"⟩ (by decide)).2
  · exact (h.2.2
      ⟨5, "alice", "alice", "Language", "blue", 1,
        [⟨99, "alice", "alice", "Java"⟩, ⟨7, "alice", "alice", "Python"⟩]⟩
      (by decide) ⟨7, "alice", "alice", "Python"⟩ (by decide)
      (by decide)).2

/-- **C2, counterexample.** The claim asserts that whenever entities of
type T reference entities of type T′, T′ appears strictly before T in
`TYPES`, and in particular that `'tagtypes'` precedes `'tags'`.  In the
code `'tags'` is at index 0 and `'tagtypes'` at index 1, while a produced
tag does embed its owning tag type: extracting the single category
"Language" (id 5, one tag "Java", origin id 99) against an empty
destination yields a `tags` collection whose element carries the
"Language" tag-type entity.  So the referencing type precedes the
referenced one. -/
theorem c2_types_order_counterexample :
    ¬ (TYPES.indexOf "tagtypes" < TYPES.indexOf "tags") ∧
    (processTagTypes [] [] TagPhaseState.empty
        [⟨5, "alice", "alice", "Language", "blue", 1,
          [⟨99, "alice", "alice", "Java"⟩]⟩]).tags =
      [{ id := 99, createUser := "alice", updateUser := "alice",
         name := "Java",
         tagType := { id := 5, createUser := "alice", updateUser := "alice",
                      name := "Language", colour := "blue", rank := 1,
                      username := "alice" } }] := by
  constructor
  · decide
  · rfl

/-- **C2, amended.** Produced tags embed their owning tag type, but
`'tags'` appears strictly *before* `'tagtypes'` in `TYPES`: the ordering
invariant fails for this pair — every element of the outgoing `tags`
collection carries the tag-type entity of the source category it was
extracted from, while the `tags` type is created (and deleted) before
`tagtypes`. -/
theorem c2_types_order_amended (destTags : List (String × DestTag))
    (destNames : List String) (tts : List SourceTagType) :
    TYPES.indexOf "tags" < TYPES.indexOf "tagtypes" ∧
    ∀ te ∈ (processTagTypes destTags destNames TagPhaseState.empty tts).tags,
      ∃ tt1 ∈ tts, te.tagType = mkTagTypeCore tt1 := by
  constructor
  · decide
  · intro te hte
    rcases processTagTypes_tags_mem destTags destNames tts
        TagPhaseState.empty te hte with h | h
    · exact absurd h (List.not_mem_nil te)
    · obtain ⟨tt1, htt1, ht⟩ := List.mem_flatMap.mp h
      obtain ⟨t1, _, rfl⟩ := List.mem_map.mp ht
      exact ⟨tt1, htt1, rfl⟩

/-- Witness for the amended C2 at the "Language"/"Java" input. -/
theorem c2_types_order_amended_witness :
    TYPES.indexOf "tags" < TYPES.indexOf "tagtypes" ∧
    ∃ tt1 ∈ [(⟨5, "alice", "alice", "Language", "blue", 1,
        [⟨99, "alice", "alice", "Java"⟩]⟩ : SourceTagType)],
      ({ id := 99, createUser := "alice", updateUser := "alice",
         name := "Java",
         tagType := { id := 5, createUser := "alice", updateUser := "alice",
                      name := "Language", colour := "blue", rank := 1,
                      username := "alice" } } : TagEntity).tagType =
        mkTagTypeCore tt1 := by
  have h := c2_types_order_amended [] []
    [⟨5, "alice", "alice", "Language", "blue", 1,
      [⟨99, "alice", "alice", "Java"⟩]⟩]
  exact ⟨h.1, h.2 _ (by decide)⟩

/-- **C4.** If an application's source payload lists a tag id that is not
present in the `origin-tags` collection, resolving the application's tag
references aborts with the fatal diagnostic of `findById`, naming the
collection (`"origin-tags"`) and an id that is listed by the payload and
missing from the index; no reference list is produced. -/
theorem c4_missing_origin_tag_fatal (originTags : List TagEntity)
    (destTags : List (String × DestTag)) (ids : List Int)
    (h : ∃ tid ∈ ids, tid ∉ originTags.map TagEntity.id) :
    ∃ e : FindErr, resolveAppTags originTags destTags ids = .error e ∧
      e.objType = "origin-tags" ∧ e.id ∈ ids ∧
      e.id ∉ originTags.map TagEntity.id := by
  induction ids with
  | nil => obtain ⟨tid, h1, _⟩ := h; exact absurd h1 (List.not_mem_nil tid)
  | cons tid rest ih =>
    by_cases hmem : tid ∈ originTags.map TagEntity.id
    · obtain ⟨te, hte⟩ := findById_isOk "origin-tags" originTags tid hmem
      have hrest : ∃ t ∈ rest, t ∉ originTags.map TagEntity.id := by
        obtain ⟨t, ht1, ht2⟩ := h
        rcases List.mem_cons.mp ht1 with rfl | ht1'
        · exact absurd hmem ht2
        · exact ⟨t, ht1', ht2⟩
      obtain ⟨e, he1, he2, he3, he4⟩ := ih hrest
      refine ⟨e, ?_, he2, List.mem_cons_of_mem _ he3, he4⟩
      have hr := resolveTagRef_ok originTags destTags tid te hte
      cases hlook : destTags.lookup te.name with
      | none =>
          rw [hlook] at hr
          exact resolveAppTags_cons_ok_error _ _ _ _ _ _ hr he1
      | some dt =>
          rw [hlook] at hr
          exact resolveAppTags_cons_ok_error _ _ _ _ _ _ hr he1
    · refine ⟨⟨"origin-tags", tid⟩, ?_, rfl, List.mem_cons_self _ _, hmem⟩
      have hf := findById_error "origin-tags" originTags tid hmem
      exact resolveAppTags_cons_error _ _ _ _ _
        (resolveTagRef_error _ _ _ _ hf)

/-- Witness for C4: an application referencing tag id 99 while
`origin-tags` holds only the tag with id 7 aborts with the "origin-tags
record ID 99 not found" diagnostic. -/
theorem c4_missing_origin_tag_fatal_witness :
    (∃ tid ∈ [(99 : Int)],
      tid ∉ ([⟨7, "alice", "alice", "Python",
        ⟨5, "alice", "alice", "Language", "blue", 1, "alice"⟩⟩] :
          List TagEntity).map TagEntity.id) ∧
    ∃ e : FindErr,
      resolveAppTags
        [⟨7, "alice", "alice", "Python",
          ⟨5, "alice", "alice", "Language", "blue", 1, "alice"⟩⟩]
        [] [99] = .error e ∧
      e.objType = "origin-tags" ∧ e.id ∈ [(99 : Int)] ∧
      e.id ∉ ([⟨7, "alice", "alice", "Python",
        ⟨5, "alice", "alice", "Language", "blue", 1, "alice"⟩⟩] :
          List TagEntity).map TagEntity.id := by
  refine ⟨⟨99, by decide, by decide⟩, ?_⟩
  exact c4_missing_origin_tag_fatal _ [] [99] ⟨99, by decide, by decide⟩

/-! ### `preImportCheck` (lines 390–401) and the import action (460–464)

```python
def preImportCheck(self):
    for t in self.TYPES:
        if "assessment" in t:
            continue
        print("Checking %s in destination Tackle2.." % t)
        destCollection = apiJSON(self.tackle2Url + tackle2path(t), ...)
        localCollection = loadDump(os.path.join(self.dataDir, t + '.json'))
        for importObj in localCollection:
            for destObj in destCollection:
                if importObj['id'] == destObj['id']:
                    print("ERROR: Resource %s/%d \"%s\" already exists ...")
                    exit(1)
```

The import action runs `preImportCheck` (unless `--skip-destination-check`)
and only then `uploadTackle2`; `uploadTackle2` iterates `TYPES` forward and
issues one POST per snapshot element of every non-assessment type.  The
check itself performs only GETs and file reads, so its output — and hence
the destination mutations of the whole action — is the list of create
calls, empty on a collision error. -/

/-- A snapshot/destination record as the check reads it: the `id` and
`name` keys of the loaded dict. -/
structure IdRec where
  id : Int
  name : String
deriving Repr, DecidableEq

/-- The collision diagnostic printed before `exit(1)` at line 400. -/
structure CollisionErr where
  objType : String
  id : Int
  localName : String
  destName : String
deriving Repr, DecidableEq

/-- Inner `for destObj in destCollection` loop for one local record. -/
def checkObj (t : String) (importObj : IdRec) :
    List IdRec → Except CollisionErr Unit
  | [] => .ok ()
  | destObj :: rest =>
      if importObj.id = destObj.id then
        .error ⟨t, importObj.id, importObj.name, destObj.name⟩
      else checkObj t importObj rest

/-- `for importObj in localCollection` loop for one type. -/
def checkType (t : String) (localColl destColl : List IdRec) :
    Except CollisionErr Unit :=
  match localColl with
  | [] => .ok ()
  | importObj :: rest =>
      match checkObj t importObj destColl with
      | .ok () => checkType t rest destColl
      | .error e => .error e

/-- `Tackle12Import.preImportCheck`, over the destination's collections
(`dest`) and the loaded snapshot collections (`localD`). -/
def preImportCheck (dest localD : String → List IdRec) :
    List String → Except CollisionErr Unit
  | [] => .ok ()
  | t :: rest =>
      if isAssessment t then preImportCheck dest localD rest
      else
        match checkType t (localD t) (dest t) with
        | .ok () => preImportCheck dest localD rest
        | .error e => .error e

/-- One POST issued by `uploadTackle2`. -/
structure CreateCall where
  objType : String
  payload : IdRec
deriving Repr, DecidableEq

/-- The create calls `uploadTackle2` issues: `TYPES` in forward order, one
POST per snapshot element, skipping the Pathfinder ("assessment") types. -/
def uploadCalls (localD : String → List IdRec) : List CreateCall :=
  TYPES.flatMap (fun t =>
    if isAssessment t then [] else (localD t).map (fun o => ⟨t, o⟩))

/-- The `import` action (lines 460–464): run the preflight check unless
skipped, then upload.  The result is the list of create calls reaching the
destination; a collision error means the run exited before any create. -/
def importAction (dest localD : String → List IdRec) (skipDestCheck : Bool) :
    Except CollisionErr (List CreateCall) :=
  if skipDestCheck then .ok (uploadCalls localD)
  else
    match preImportCheck dest localD TYPES with
    | .ok () => .ok (uploadCalls localD)
    | .error e => .error e

theorem checkObj_ok_iff (t : String) (importObj : IdRec) :
    ∀ destColl : List IdRec,
      checkObj t importObj destColl = .ok () ↔
        ∀ b ∈ destColl, importObj.id ≠ b.id
  | [] => by simp [checkObj]
  | destObj :: rest => by
      by_cases h : importObj.id = destObj.id
      · simp [checkObj, h]
      · simp [checkObj, h, checkObj_ok_iff t importObj rest]

theorem checkType_ok_iff (t : String) :
    ∀ localColl destColl : List IdRec,
      checkType t localColl destColl = .ok () ↔
        ∀ a ∈ localColl, ∀ b ∈ destColl, a.id ≠ b.id
  | [], destColl => by simp [checkType]
  | importObj :: rest, destColl => by
      cases hobj : checkObj t importObj destColl with
      | ok u =>
          cases u
          have h1 := (checkObj_ok_iff t importObj destColl).mp hobj
          have hstep : checkType t (importObj :: rest) destColl =
              checkType t rest destColl := by
            simp [checkType, hobj]
          rw [hstep, checkType_ok_iff t rest destColl]
          constructor
          · intro h a ha b hb
            rcases List.mem_cons.mp ha with rfl | ha'
            · exact h1 b hb
            · exact h a ha' b hb
          · intro h a ha b hb
            exact h a (List.mem_cons_of_mem _ ha) b hb
      | error e =>
          have h1 : ¬∀ b ∈ destColl, importObj.id ≠ b.id := by
            intro hall
            rw [(checkObj_ok_iff t importObj destColl).mpr hall] at hobj
            exact Except.noConfusion hobj
          have hstep : checkType t (importObj :: rest) destColl = .error e := by
            simp [checkType, hobj]
          rw [hstep]
          constructor
          · intro h; exact absurd h (by simp)
          · intro hall
            exact absurd (fun b hb => hall importObj (List.mem_cons_self _ _) b hb) h1

theorem preImportCheck_ok_iff (dest localD : String → List IdRec) :
    ∀ types : List String,
      preImportCheck dest localD types = .ok () ↔
        ∀ t ∈ types, isAssessment t = false →
          ∀ a ∈ localD t, ∀ b ∈ dest t, a.id ≠ b.id
  | [] => by simp [preImportCheck]
  | t :: rest => by
      by_cases ha : isAssessment t
      · simp only [preImportCheck, ha, if_true]
        rw [preImportCheck_ok_iff dest localD rest]
        constructor
        · intro h t' ht' hna
          rcases List.mem_cons.mp ht' with rfl | ht''
          · exact absurd ha (by simp [hna])
          · exact h t' ht'' hna
        · intro h t' ht' hna
          exact h t' (List.mem_cons_of_mem _ ht') hna
      · cases hct : checkType t (localD t) (dest t) with
        | ok u =>
            cases u
            have h1 := (checkType_ok_iff t (localD t) (dest t)).mp hct
            have hstep : preImportCheck dest localD (t :: rest) =
                preImportCheck dest localD rest := by
              simp [preImportCheck, ha, hct]
            rw [hstep, preImportCheck_ok_iff dest localD rest]
            constructor
            · intro h t' ht' hna
              rcases List.mem_cons.mp ht' with rfl | ht''
              · exact h1
              · exact h t' ht'' hna
            · intro h t' ht' hna
              exact h t' (List.mem_cons_of_mem _ ht') hna
        | error e =>
            have h1 : ¬∀ a ∈ localD t, ∀ b ∈ dest t, a.id ≠ b.id := by
              intro hall
              rw [(checkType_ok_iff t (localD t) (dest t)).mpr hall] at hct
              exact Except.noConfusion hct
            have hstep : preImportCheck dest localD (t :: rest) = .error e := by
              simp [preImportCheck, ha, hct]
            rw [hstep]
            constructor
            · intro h; exact absurd h (by simp)
            · intro hall
              exact absurd (hall t (List.mem_cons_self _ _) (by simpa using ha)) h1

/-- An `Except CollisionErr Unit` that is not `ok ()` is an error. -/
theorem except_unit_not_ok {ε : Type} (x : Except ε Unit) (h : x ≠ .ok ()) :
    ∃ e, x = .error e := by
  cases x with
  | ok u => cases u; exact absurd rfl h
  | error e => exact ⟨e, rfl⟩

/-- **C3.** If, for some non-excluded type, a snapshot record's id matches
a destination record's id, the import action terminates with a collision
error and issues no create call; if no such match exists in any checked
type, the preflight check passes (it performs no mutation by itself) and
the action proceeds to the uploads. -/
theorem c3_preflight_gate (dest localD : String → List IdRec) :
    ((∃ t ∈ TYPES, isAssessment t = false ∧
        ∃ a ∈ localD t, ∃ b ∈ dest t, a.id = b.id) →
      ∃ e : CollisionErr, preImportCheck dest localD TYPES = .error e ∧
        importAction dest localD false = .error e) ∧
    ((∀ t ∈ TYPES, isAssessment t = false →
        ∀ a ∈ localD t, ∀ b ∈ dest t, a.id ≠ b.id) →
      preImportCheck dest localD TYPES = .ok () ∧
        importAction dest localD false = .ok (uploadCalls localD)) := by
  constructor
  · intro ⟨t, ht, hna, a, ha, b, hb, hid⟩
    have hne : preImportCheck dest localD TYPES ≠ .ok () := by
      intro hok
      exact (preImportCheck_ok_iff dest localD TYPES).mp hok t ht hna a ha b hb hid
    obtain ⟨e, he⟩ := except_unit_not_ok _ hne
    refine ⟨e, he, ?_⟩
    simp [importAction, he]
  · intro hall
    have hok : preImportCheck dest localD TYPES = .ok () :=
      (preImportCheck_ok_iff dest localD TYPES).mpr hall
    exact ⟨hok, by simp [importAction, hok]⟩

/-- Witness for C3, both directions: type `"applications"` with local and
destination records both carrying id 7 collides; with an empty local
snapshot no collision exists and the action reaches the (empty) uploads. -/
theorem c3_preflight_gate_witness :
    (∃ t ∈ TYPES, isAssessment t = false ∧
      (∃ a ∈ (fun t => if t = "applications" then [(⟨7, "App"⟩ : IdRec)] else []) t,
        ∃ b ∈ (fun t => if t = "applications" then [(⟨7, "Dest"⟩ : IdRec)] else []) t,
          a.id = b.id)) ∧
    (∃ e : CollisionErr,
      importAction (fun t => if t = "applications" then [⟨7, "Dest"⟩] else [])
        (fun t => if t = "applications" then [⟨7, "App"⟩] else []) false =
        .error e) ∧
    importAction (fun _ => [⟨7, "Dest"⟩]) (fun _ => []) false =
      .ok (uploadCalls (fun _ => [])) := by
  have hcol : ∃ t ∈ TYPES, isAssessment t = false ∧
      (∃ a ∈ (fun t => if t = "applications" then [(⟨7, "App"⟩ : IdRec)] else []) t,
        ∃ b ∈ (fun t => if t = "applications" then [(⟨7, "Dest"⟩ : IdRec)] else []) t,
          a.id = b.id) := by
    refine ⟨"applications", by decide, by decide, ⟨7, "App"⟩, ?_, ⟨7, "Dest"⟩, ?_, rfl⟩
    · simp
    · simp
  have h1 := (c3_preflight_gate
    (fun t => if t = "applications" then [⟨7, "Dest"⟩] else [])
    (fun t => if t = "applications" then [⟨7, "App"⟩] else [])).1 hcol
  have h2 := (c3_preflight_gate (fun _ => [⟨7, "Dest"⟩]) (fun _ => [])).2
    (by intro t _ _ a ha; exact absurd ha (List.not_mem_nil a))
  obtain ⟨e, _, he⟩ := h1
  exact ⟨hcol, ⟨e, he⟩, h2.2⟩

/-! ### `uploadTackle2` (lines 380–388) and `cleanTackle2` (lines 403–416)

```python
def uploadTackle2(self):
    for t in self.TYPES:
        dictCollection = loadDump(...)
        for dictObj in dictCollection:
            if "assessment" in t:
                continue
            apiJSON(... tackle2path(t), ..., dictObj, method='POST')

def cleanTackle2(self):
    self.TYPES.reverse()
    for t in self.TYPES:
        dictCollection = loadDump(...)
        for dictObj in dictCollection:
            if "assessment" in t:
                continue
            print("Deleting %s/%s" % (t, dictObj['id']))
            apiJSON(..., method='DELETE', ignoreErrors=True)
```

`cleanTackle2` reverses `TYPES` in place and then walks it; within one
process the cleaner runs once, so its traversal is the exact reverse of
the uploader's.  Every delete passes `ignoreErrors=True` to `apiJSON`,
whose error branch (lines 78–83) merely logs when that flag is set. -/

/-- The per-type traversal order of `uploadTackle2`. -/
def uploadVisitOrder : List String := TYPES

/-- The per-type traversal order of `cleanTackle2` after the in-place
`self.TYPES.reverse()`. -/
def cleanVisitOrder : List String := TYPES.reverse

/-- One DELETE issued by the cleaner, with the flag it passes. -/
structure DeleteCall where
  objType : String
  id : Int
  ignoreErrors : Bool
deriving Repr, DecidableEq

/-- `apiJSON`'s status handling (lines 78–83): a failed call is fatal
unless `ignoreErrors` is set, in which case it is logged and ignored. -/
def apiStatusCheck (ok ignoreErrors : Bool) : Except String Unit :=
  if ok then .ok ()
  else if ignoreErrors then .ok () else .error "API request failed"

/-- Inner object loop of `cleanTackle2` for one type; `respond` tells
whether the destination answered each delete with a 2xx status. -/
def cleanObjs (respond : String → Int → Bool) (t : String) :
    List IdRec → Except String (List DeleteCall)
  | [] => .ok []
  | o :: rest =>
      if isAssessment t then cleanObjs respond t rest
      else
        match apiStatusCheck (respond t o.id) true with
        | .ok () =>
            match cleanObjs respond t rest with
            | .ok more => .ok (⟨t, o.id, true⟩ :: more)
            | .error e => .error e
        | .error e => .error e

/-- The outer type loop of `cleanTackle2`: the calls of each type in
sequence, aborting only if some call were fatal (none is, since every
delete passes `ignoreErrors=True`). -/
def cleanTypes (respond : String → Int → Bool)
    (localD : String → List IdRec) : List String → Except String (List DeleteCall)
  | [] => .ok []
  | t :: rest =>
      match cleanObjs respond t (localD t) with
      | .ok calls =>
          match cleanTypes respond localD rest with
          | .ok more => .ok (calls ++ more)
          | .error e => .error e
      | .error e => .error e

/-- `Tackle12Import.cleanTackle2`: walk the reversed type list, issuing
best-effort deletes; returns the delete calls issued. -/
def cleanTackle2 (respond : String → Int → Bool)
    (localD : String → List IdRec) : Except String (List DeleteCall) :=
  cleanTypes respond localD cleanVisitOrder

/-- The deletes the cleaner issues, independently of any response: the
reversed type order, all snapshot elements of non-assessment types, every
call flagged best-effort. -/
def cleanStaticCalls (localD : String → List IdRec) : List DeleteCall :=
  cleanVisitOrder.flatMap (fun t =>
    if isAssessment t then []
    else (localD t).map (fun o => ⟨t, o.id, true⟩))

theorem apiStatusCheck_ignore (ok : Bool) :
    apiStatusCheck ok true = .ok () := by
  cases ok <;> rfl

theorem cleanObjs_spec (respond : String → Int → Bool) (t : String) :
    ∀ objs : List IdRec,
      cleanObjs respond t objs =
        .ok (if isAssessment t then []
             else objs.map (fun o => (⟨t, o.id, true⟩ : DeleteCall)))
  | [] => by by_cases h : isAssessment t <;> simp [cleanObjs, h]
  | o :: rest => by
      by_cases h : isAssessment t
      · simp [cleanObjs, h, cleanObjs_spec respond t rest]
      · simp [cleanObjs, h, apiStatusCheck_ignore, cleanObjs_spec respond t rest]

theorem cleanTypes_spec (respond : String → Int → Bool)
    (localD : String → List IdRec) :
    ∀ types : List String,
      cleanTypes respond localD types =
        .ok (types.flatMap (fun t =>
          if isAssessment t then []
          else (localD t).map (fun o => ⟨t, o.id, true⟩)))
  | [] => by simp [cleanTypes]
  | t :: rest => by
      simp [cleanTypes, cleanObjs_spec respond t (localD t),
        cleanTypes_spec respond localD rest]

/-- **C8.** The cleaner's type traversal is the exact reverse of the
uploader's, and a cleanup run never aborts, whatever the destination
answers: it issues exactly the best-effort deletes of every snapshot
element of every non-assessment type, each with `ignoreErrors` set, in
reversed type order — independent of the response oracle. -/
theorem c8_clean_reverse_best_effort (respond : String → Int → Bool)
    (localD : String → List IdRec) :
    cleanVisitOrder = uploadVisitOrder.reverse ∧
    cleanTackle2 respond localD = .ok (cleanStaticCalls localD) ∧
    (∀ c ∈ cleanStaticCalls localD, c.ignoreErrors = true) := by
  refine ⟨rfl, ?_, ?_⟩
  · unfold cleanTackle2 cleanStaticCalls
    exact cleanTypes_spec respond localD cleanVisitOrder
  · intro c hc
    obtain ⟨t, _, hc'⟩ := List.mem_flatMap.mp hc
    split at hc'
    · exact absurd hc' (List.not_mem_nil c)
    · obtain ⟨o, _, rfl⟩ := List.mem_map.mp hc'
      rfl

/-! ### Stakeholder extraction (lines 301–328)

```python
for sh1 in collection:
    shgs = []
    for shg1 in sh1['stakeholderGroups']:
        shg             = Tackle2Object(shg1)
        shg.name        = shg1['name']
        shg.description = shg1['description']
        self.add('stakeholdergroups', shg)
        shgs.append(shg)
    sh            = Tackle2Object(sh1)
    sh.name       = sh1['displayName']
    sh.email      = sh1['email']
    sh.groups     = shgs
    if sh1['jobFunction']:
        if sh1['jobFunction']['name'] in self.destData['jobfunctions']:
            sh.jobFunction = self.destData['jobfunctions'][sh['jobFunction']['name']]
        else:
            jf              = Tackle2Object(sh['jobFunction'])
            jf.name         = sh['jobFunction']['role']
            self.add('jobfunctions', jf)
            sh.jobFunction = jf
    self.add('stakeholders', sh)
```

Inside the `if`, both branches subscript `sh` — the freshly built
`Tackle2Object` — instead of the source record `sh1`.  `Tackle2Object`
defines no `__getitem__`, so `sh['jobFunction']` raises
`TypeError: 'Tackle2Object' object is not subscriptable` whichever branch
is taken, and the extraction run dies with an uncaught exception. -/

/-- A Python exception escaping the extraction loop. -/
inductive PyError where
  | typeError (msg : String)
deriving Repr, DecidableEq

structure SourceStakeholderGroup where
  id : Int
  createUser : String
  updateUser : String
  name : String
  description : String
deriving Repr, DecidableEq

/-- The nested `jobFunction` payload of a source stakeholder.  We give it
both a `name` and a `role` key, the best case for the code under test. -/
structure SourceJobFunction where
  id : Int
  createUser : String
  updateUser : String
  name : String
  role : String
deriving Repr, DecidableEq

structure SourceStakeholder where
  id : Int
  createUser : String
  updateUser : String
  displayName : String
  email : String
  stakeholderGroups : List SourceStakeholderGroup
  jobFunction : Option SourceJobFunction
deriving Repr, DecidableEq

structure StakeholderGroupEntity where
  id : Int
  createUser : String
  updateUser : String
  name : String
  description : String
deriving Repr, DecidableEq

def mkStakeholderGroup (shg1 : SourceStakeholderGroup) :
    StakeholderGroupEntity :=
  { id := shg1.id, createUser := shg1.createUser,
    updateUser := shg1.updateUser, name := shg1.name,
    description := shg1.description }

/-- A job-function reference a stakeholder could end up carrying (never
reached: see `processStakeholder`). -/
structure JobFunctionRef where
  id : Int
  name : String
deriving Repr, DecidableEq

structure StakeholderEntity where
  id : Int
  createUser : String
  updateUser : String
  name : String
  email : String
  groups : List StakeholderGroupEntity
  jobFunction : Option JobFunctionRef
deriving Repr, DecidableEq

/-- One iteration of the stakeholder loop, up to the final
`self.add('stakeholders', sh)`; `destJobFunctionNames` is the key set of
`self.destData['jobfunctions']`.  When the source record carries a job
function, the membership test on `sh1['jobFunction']['name']` is evaluated
first (line 319); then *either* branch evaluates `sh['jobFunction']`,
subscripting the `Tackle2Object` built at line 314, which raises
`TypeError`. -/
def processStakeholder (destJobFunctionNames : List String)
    (sh1 : SourceStakeholder) : Except PyError StakeholderEntity :=
  let shgs := sh1.stakeholderGroups.map mkStakeholderGroup
  let sh : StakeholderEntity :=
    { id := sh1.id, createUser := sh1.createUser,
      updateUser := sh1.updateUser, name := sh1.displayName,
      email := sh1.email, groups := shgs, jobFunction := Option.none }
  match sh1.jobFunction with
  | Option.none => .ok sh
  | some jf =>
      if destJobFunctionNames.contains jf.name then
        -- `self.destData['jobfunctions'][sh['jobFunction']['name']]`
        .error (.typeError "'Tackle2Object' object is not subscriptable")
      else
        -- `Tackle2Object(sh['jobFunction'])`
        .error (.typeError "'Tackle2Object' object is not subscriptable")

/-- **C5 (code behaviour).** Every stakeholder that carries a job-function
reference crashes the extraction with a `TypeError`, whether or not the
role's name is known to the destination: the code subscripts the produced
`Tackle2Object` (`sh['jobFunction']`) instead of the source record
(`sh1['jobFunction']`) in both branches, so the claimed resolve-or-mint
behaviour is unreachable.  A stakeholder without a job function is
processed normally. -/
theorem c5_jobfunction_typeerror (destJobFunctionNames : List String)
    (sh1 : SourceStakeholder) (jf : SourceJobFunction)
    (h : sh1.jobFunction = some jf) :
    processStakeholder destJobFunctionNames sh1 =
      .error (.typeError "'Tackle2Object' object is not subscriptable") := by
  unfold processStakeholder
  rw [h]
  by_cases hc : destJobFunctionNames.contains jf.name <;> simp [hc]

/-- Witness for C5: the stakeholder "Ana" with job function
"Manager" — present in the destination's job-function index or not
(both memberships exercised) — raises `TypeError`. -/
theorem c5_jobfunction_typeerror_witness :
    (⟨3, "alice", "alice", "Ana", "ana@x", [],
        some ⟨8, "alice", "alice", "Manager", "Manager"⟩⟩ :
      SourceStakeholder).jobFunction =
        some ⟨8, "alice", "alice", "Manager", "Manager"⟩ ∧
    processStakeholder ["Manager"]
      ⟨3, "alice", "alice", "Ana", "ana@x", [],
        some ⟨8, "alice", "alice", "Manager", "Manager"⟩⟩ =
      .error (.typeError "'Tackle2Object' object is not subscriptable") ∧
    processStakeholder []
      ⟨3, "alice", "alice", "Ana", "ana@x", [],
        some ⟨8, "alice", "alice", "Manager", "Manager"⟩⟩ =
      .error (.typeError "'Tackle2Object' object is not subscriptable") := by
  refine ⟨rfl, ?_, ?_⟩
  · exact c5_jobfunction_typeerror ["Manager"]
      ⟨3, "alice", "alice", "Ana", "ana@x", [],
        some ⟨8, "alice", "alice", "Manager", "Manager"⟩⟩
      ⟨8, "alice", "alice", "Manager", "Manager"⟩ rfl
  · exact c5_jobfunction_typeerror []
      ⟨3, "alice", "alice", "Ana", "ana@x", [],
        some ⟨8, "alice", "alice", "Manager", "Manager"⟩⟩
      ⟨8, "alice", "alice", "Manager", "Manager"⟩ rfl

/-! ### Generic entities and the `add` claims (C6, C10)

An `Entity` is a `Tackle2Object` as `add` sees it: an optional `id`
attribute (assessment-risk and confidence records are built without one)
and the remaining attributes. -/

structure Entity where
  id : Option Int
  attrs : List (String × PyVal)

/-- `assessments--assessment-risk` record construction (lines 277–282):
`assessmentId`, `applicationId`, `risk` — no `id` attribute. -/
structure SourceAssessmentRisk where
  assessmentId : Int
  applicationId : Int
  risk : String
deriving Repr, DecidableEq

def mkAssessmentRisk (r : SourceAssessmentRisk) : Entity :=
  { id := Option.none,
    attrs := [("assessmentId", .int r.assessmentId),
              ("applicationId", .int r.applicationId),
              ("risk", .str r.risk)] }

/-- `assessments--confidence` record construction (lines 286–291):
`assessmentId`, `applicationId`, `confidence` — no `id` attribute. -/
structure SourceConfidence where
  assessmentId : Int
  applicationId : Int
  confidence : Int
deriving Repr, DecidableEq

def mkConfidence (c : SourceConfidence) : Entity :=
  { id := Option.none,
    attrs := [("assessmentId", .int c.assessmentId),
              ("applicationId", .int c.applicationId),
              ("confidence", .int c.confidence)] }

/-- When the new item has no `id` attribute, `hasattr(item, 'id')` is
false for every loop iteration, so the scan runs off the end. -/
theorem addScan_none {α : Type} (getId : α → Option Int) (item : α)
    (h : getId item = Option.none) :
    ∀ coll : List α, addScan getId item coll = .ok false
  | [] => rfl
  | _ :: rest => by simp [addScan, h, addScan_none getId item h rest]

/-- When every existing element carries an id and so does the item, the
scan reports exactly whether the item's id already occurs. -/
theorem addScan_all_some {α : Type} (getId : α → Option Int) (item : α)
    (i : Int) (hitem : getId item = some i) :
    ∀ coll : List α, (∀ e ∈ coll, (getId e).isSome = true) →
      addScan getId item coll =
        .ok (coll.any (fun e => getId e = getId item))
  | [], _ => rfl
  | e :: rest, hall => by
      obtain ⟨j, hj⟩ := Option.isSome_iff_exists.mp
        (hall e (List.mem_cons_self _ _))
      have hrest := addScan_all_some getId item i hitem rest
        (fun e' he' => hall e' (List.mem_cons_of_mem _ he'))
      by_cases hij : i = j
      · simp [addScan, hitem, hj, hij, List.any_cons]
      · have : ¬(getId e = getId item) := by
          rw [hj, hitem]
          exact fun hc => hij (Option.some_injective _ hc).symm
        have hd : (decide ((some j : Option Int) = some i)) = false :=
          decide_eq_false (fun hc => hij (Option.some_injective _ hc).symm)
        simp only [addScan, hitem, hj, hij, if_false, List.any_cons, this,
          hrest, hitem, hd, Bool.false_or]

/-- **C6, counterexample.**  `add` is *not* a no-op on every collection
already containing the item's id: with an id-less record (as the
assessment-risk collections hold) sitting in front of the matching
element, the loop evaluates `existingItem.id` on it and raises
`AttributeError`, so the call neither returns the collection unchanged nor
appends. -/
theorem c6_add_idempotent_counterexample :
    add Entity.id
      [⟨Option.none, [("risk", .str "HIGH")]⟩, ⟨some 5, []⟩]
      ⟨some 5, []⟩ =
      .error "AttributeError: object has no attribute id" ∧
    add Entity.id
      [⟨Option.none, [("risk", .str "HIGH")]⟩, ⟨some 5, []⟩]
      ⟨some 5, []⟩ ≠
      .ok [⟨Option.none, [("risk", .str "HIGH")]⟩, ⟨some 5, []⟩] := by
  refine ⟨rfl, ?_⟩
  intro h
  rw [show add Entity.id
      [⟨Option.none, [("risk", .str "HIGH")]⟩, ⟨some 5, []⟩]
      ⟨some 5, []⟩ =
      .error "AttributeError: object has no attribute id" from rfl] at h
  exact Except.noConfusion h

/-- **C6, amended.**  On a collection every element of which carries an id
attribute, adding an Entity whose id is already present is a no-op; in
particular adding the same id-bearing Entity twice starting from the empty
collection yields a collection containing it exactly once (length 1). -/
theorem c6_add_idempotent_amended :
    (∀ (coll : List Entity) (item : Entity) (i : Int),
      (∀ e ∈ coll, e.id.isSome = true) → item.id = some i →
      (∃ e ∈ coll, e.id = some i) →
      add Entity.id coll item = .ok coll) ∧
    (∀ (item : Entity) (i : Int), item.id = some i →
      (add Entity.id [] item).bind (fun c => add Entity.id c item) =
        .ok [item] ∧ [item].length = 1) := by
  constructor
  · intro coll item i hall hitem ⟨e, he, hei⟩
    have hany : coll.any (fun e => e.id = item.id) = true :=
      List.any_eq_true.mpr ⟨e, he, by simp [hei, hitem]⟩
    unfold add
    rw [addScan_all_some Entity.id item i hitem coll hall, hany]
  · intro item i hitem
    refine ⟨?_, rfl⟩
    have h1 : add Entity.id [] item = .ok [item] := by
      unfold add
      rw [show addScan Entity.id item [] = .ok false from rfl]
      rfl
    have h2 : add Entity.id [item] item = .ok [item] := by
      unfold add
      rw [addScan_all_some Entity.id item i hitem [item]
        (by intro e he; rw [List.mem_singleton.mp he, hitem]; rfl)]
      simp [hitem]
    rw [h1]
    exact h2

/-- Witness for the amended C6 at concrete records with id 5. -/
theorem c6_add_idempotent_amended_witness :
    (∀ e ∈ [(⟨some 5, [("name", .str "x")]⟩ : Entity)], e.id.isSome = true) ∧
    (⟨some 5, []⟩ : Entity).id = some 5 ∧
    (∃ e ∈ [(⟨some 5, [("name", .str "x")]⟩ : Entity)], e.id = some 5) ∧
    add Entity.id [(⟨some 5, [("name", .str "x")]⟩ : Entity)] ⟨some 5, []⟩ =
      .ok [⟨some 5, [("name", .str "x")]⟩] ∧
    (add Entity.id [] (⟨some 5, []⟩ : Entity)).bind
      (fun c => add Entity.id c ⟨some 5, []⟩) = .ok [⟨some 5, []⟩] := by
  have hall : ∀ e ∈ [(⟨some 5, [("name", .str "x")]⟩ : Entity)],
      e.id.isSome = true := by
    intro e he
    rw [List.mem_singleton.mp he]
    rfl
  have hex : ∃ e ∈ [(⟨some 5, [("name", .str "x")]⟩ : Entity)],
      e.id = some 5 := ⟨⟨some 5, [("name", .str "x")]⟩, List.mem_singleton.mpr rfl, rfl⟩
  refine ⟨hall, rfl, hex, ?_, ?_⟩
  · exact c6_add_idempotent_amended.1 _ ⟨some 5, []⟩ 5 hall rfl hex
  · exact (c6_add_idempotent_amended.2 ⟨some 5, []⟩ 5 rfl).1

/-- **C10.**  An item without an `id` attribute is appended
unconditionally — `hasattr(item, 'id')` short-circuits the duplicate test
on every iteration — so assessment-risk and confidence records, which are
built without an id, are appended every time they are encountered: adding
the same record twice yields both copies (length 2), and append-idempotence
does not apply to them. -/
theorem c10_add_without_id_appends :
    (∀ (coll : List Entity) (item : Entity), item.id = Option.none →
      add Entity.id coll item = .ok (coll ++ [item])) ∧
    (∀ r : SourceAssessmentRisk,
      (mkAssessmentRisk r).id = Option.none ∧
      (add Entity.id [] (mkAssessmentRisk r)).bind
        (fun c => add Entity.id c (mkAssessmentRisk r)) =
        .ok [mkAssessmentRisk r, mkAssessmentRisk r] ∧
      [mkAssessmentRisk r, mkAssessmentRisk r].length = 2) ∧
    (∀ c : SourceConfidence,
      (mkConfidence c).id = Option.none ∧
      (add Entity.id [] (mkConfidence c)).bind
        (fun col => add Entity.id col (mkConfidence c)) =
        .ok [mkConfidence c, mkConfidence c] ∧
      [mkConfidence c, mkConfidence c].length = 2) := by
  have hadd : ∀ (coll : List Entity) (item : Entity),
      item.id = Option.none → add Entity.id coll item = .ok (coll ++ [item]) := by
    intro coll item h
    unfold add
    rw [addScan_none Entity.id item h coll]
  refine ⟨hadd, ?_, ?_⟩
  · intro r
    refine ⟨rfl, ?_, rfl⟩
    rw [hadd [] (mkAssessmentRisk r) rfl]
    show add Entity.id [mkAssessmentRisk r] (mkAssessmentRisk r) = _
    rw [hadd [mkAssessmentRisk r] (mkAssessmentRisk r) rfl]
    rfl
  · intro c
    refine ⟨rfl, ?_, rfl⟩
    rw [hadd [] (mkConfidence c) rfl]
    show add Entity.id [mkConfidence c] (mkConfidence c) = _
    rw [hadd [mkConfidence c] (mkConfidence c) rfl]
    rfl

/-- Witness for C10 at the concrete risk record (assessment 1,
application 2, risk "HIGH") and confidence record (assessment 1,
application 2, confidence 80). -/
theorem c10_add_without_id_appends_witness :
    (mkAssessmentRisk ⟨1, 2, "HIGH"⟩).id = Option.none ∧
    (add Entity.id [] (mkAssessmentRisk ⟨1, 2, "HIGH"⟩)).bind
      (fun c => add Entity.id c (mkAssessmentRisk ⟨1, 2, "HIGH"⟩)) =
      .ok [mkAssessmentRisk ⟨1, 2, "HIGH"⟩, mkAssessmentRisk ⟨1, 2, "HIGH"⟩] ∧
    (add Entity.id [] (mkConfidence ⟨1, 2, 80⟩)).bind
      (fun c => add Entity.id c (mkConfidence ⟨1, 2, 80⟩)) =
      .ok [mkConfidence ⟨1, 2, 80⟩, mkConfidence ⟨1, 2, 80⟩] :=
  ⟨(c10_add_without_id_appends.2.1 ⟨1, 2, "HIGH"⟩).1,
   (c10_add_without_id_appends.2.1 ⟨1, 2, "HIGH"⟩).2.1,
   (c10_add_without_id_appends.2.2 ⟨1, 2, 80⟩).2.1⟩

/-- Witness for C8: with a snapshot holding one application (id 7) and a
destination that answers *every* delete with a failure, the cleanup still
completes, issuing exactly the single best-effort delete
`applications/7`. -/
theorem c8_clean_reverse_best_effort_witness :
    cleanTackle2 (fun _ _ => false)
      (fun t => if t = "applications" then [⟨7, "App"⟩] else []) =
      .ok (cleanStaticCalls
        (fun t => if t = "applications" then [⟨7, "App"⟩] else [])) ∧
    cleanStaticCalls
      (fun t => if t = "applications" then [⟨7, "App"⟩] else []) =
      [⟨"applications", 7, true⟩] := by
  refine ⟨(c8_clean_reverse_best_effort (fun _ _ => false)
    (fun t => if t = "applications" then [⟨7, "App"⟩] else [])).2.1, ?_⟩
  decide

/-! ### Snapshot round trip (C7) and dependency records (C9) -/

/-- **C7.** Snapshot round trip: for every collection X,
`loadDump (saveJSON X)` is the same collection, each element materialised
as exactly its field set — a `Tackle2Object` comes back as the dict of
precisely its attributes, names and order preserved (the very form
`uploadTackle2` submits on create), nested values likewise; on data that
is already JSON-shaped the round trip is the identity. -/
theorem c7_snapshot_roundtrip :
    (∀ X : List PyVal, loadDump (saveJSON X) = .list (X.map erase)) ∧
    (∀ fs : List (String × PyVal),
      erase (.obj fs) = .dict (eraseFields fs) ∧
      (eraseFields fs).map Prod.fst = fs.map Prod.fst) ∧
    (∀ X : List PyVal, jsonPureList X = true →
      loadDump (saveJSON X) = .list X) := by
  refine ⟨?_, ?_, ?_⟩
  · intro X
    show loadJson (dumps (.list X)) = _
    rw [loadJson_dumps]
    show PyVal.list (eraseList X) = _
    rw [eraseList_eq_map]
  · intro fs
    exact ⟨rfl, eraseFields_keys fs⟩
  · intro X h
    have h1 : jsonPure (.list X) = true := by simpa [jsonPure] using h
    show loadJson (dumps (.list X)) = _
    rw [loadJson_dumps, erase_of_jsonPure _ h1]

/-- Witness for C7: a one-element collection holding a `Tackle2Object`
with fields `id`, `name` loads back as the dict of exactly those fields,
and a dict-shaped collection loads back unchanged. -/
theorem c7_snapshot_roundtrip_witness :
    loadDump (saveJSON [.obj [("id", .int 7), ("name", .str "App")]]) =
      .list [.dict [("id", .int 7), ("name", .str "App")]] ∧
    jsonPureList [PyVal.dict [("id", .int 7), ("name", .str "App")]] = true ∧
    loadDump (saveJSON [.dict [("id", .int 7), ("name", .str "App")]]) =
      .list [.dict [("id", .int 7), ("name", .str "App")]] := by
  refine ⟨?_, rfl, ?_⟩
  · rw [c7_snapshot_roundtrip.1 [.obj [("id", .int 7), ("name", .str "App")]]]
    rfl
  · exact c7_snapshot_roundtrip.2.2
      [.dict [("id", .int 7), ("name", .str "App")]] rfl

/-- A source dependency record's endpoint reference (`dep1['to']` /
`dep1['from']`): the `id` and `name` the code copies. -/
structure SourceAppRef where
  id : Int
  name : String
deriving Repr, DecidableEq

structure SourceDependency where
  id : Int
  createUser : String
  updateUser : String
  toRef : SourceAppRef
  fromRef : SourceAppRef
deriving Repr, DecidableEq

/-- Lines 256–262: the produced dependency entity.  `dep.to` and
`dep.from` (set via `setattr` because `from` is a Python keyword; the Lean
source fields are `toRef`/`fromRef` for the same reason) are fresh dicts
copying the source endpoints' `id` and `name` verbatim. -/
def mkDependency (d : SourceDependency) : PyVal :=
  .obj [("id", .int d.id),
        ("createUser", .str d.createUser),
        ("updateUser", .str d.updateUser),
        ("to", .dict [("id", .int d.toRef.id), ("name", .str d.toRef.name)]),
        ("from", .dict [("id", .int d.fromRef.id),
                        ("name", .str d.fromRef.name)])]

/-- **C9.** For every source dependency record, the produced entity copies
both endpoint application references verbatim as `{id, name}` pairs — the
source system's ids, no remap — and storing then loading the record yields
an element with identical `to` and `from` fields. -/
theorem c9_dependency_verbatim (d : SourceDependency) :
    mkDependency d =
      .obj [("id", .int d.id),
            ("createUser", .str d.createUser),
            ("updateUser", .str d.updateUser),
            ("to", .dict [("id", .int d.toRef.id),
                          ("name", .str d.toRef.name)]),
            ("from", .dict [("id", .int d.fromRef.id),
                            ("name", .str d.fromRef.name)])] ∧
    loadDump (saveJSON [mkDependency d]) =
      .list [.dict [("id", .int d.id),
                    ("createUser", .str d.createUser),
                    ("updateUser", .str d.updateUser),
                    ("to", .dict [("id", .int d.toRef.id),
                                  ("name", .str d.toRef.name)]),
                    ("from", .dict [("id", .int d.fromRef.id),
                                    ("name", .str d.fromRef.name)])]] :=
  ⟨rfl, rfl⟩

end Tackle
